import Mathlib

/-!
Verification of the `kata-ctl` command-line argument surface
(`src/tools/kata-ctl/src/args.rs`).

The Rust source declares the grammar with `clap` derive attributes.  The
data model below (`Commands`, the per-verb argument records, and the
`FromStr` converter for `IpTablesArguments`) is embedded directly from
the source.  The token-level parsing engine is the `clap` library, which
is not part of the repository; it is modelled from the spec's grammar
resolution order (§4) applied to the attributes declared in the source
(§6): see `parse` below.
-/

namespace KataCtl

/-- `CheckSubCommand` from args.rs: the six `check` subcommands. -/
inductive CheckSubCommand where
  | All
  | NoNetworkChecks
  | CheckVersionOnly
  | OnlyListReleases
  | IncludeAllReleases
  | List
deriving DecidableEq

/-- `EnvArgument` from args.rs: `--json` boolean flag, `-f|--file` optional string. -/
structure EnvArgument where
  json : Bool
  file : Option String
deriving DecidableEq

/-- `MetricsSubCommand` from args.rs: a single placeholder subcommand. -/
inductive MetricsSubCommand where
  | MetricsArgs
deriving DecidableEq

/-- `IpTablesArguments` from args.rs: `get`/`set`, each with a required
`--sand-box <ID>` option and a `--v6` boolean flag; `set` also has a
required `FILE` positional. -/
inductive IpTablesArguments where
  | Get (sandbox_id : String) (v6 : Bool)
  | Set (sandbox_id : String) (v6 : Bool) (file : String)
deriving DecidableEq

/-- `DirectVolAddArgs` from args.rs. -/
structure DirectVolAddArgs where
  volume_path : String
  mount_info : String
deriving DecidableEq

/-- `DirectVolRemoveArgs` from args.rs. -/
structure DirectVolRemoveArgs where
  volume_path : String
deriving DecidableEq

/-- `DirectVolStatsArgs` from args.rs. -/
structure DirectVolStatsArgs where
  volume_path : String
deriving DecidableEq

/-- `DirectVolResizeArgs` from args.rs; `resize_size` is a Rust `u64`,
embedded as a `Nat` kept below `2 ^ 64` by the parser. -/
structure DirectVolResizeArgs where
  volume_path : String
  resize_size : Nat
deriving DecidableEq

/-- `DirectVolSubcommand` from args.rs. -/
inductive DirectVolSubcommand where
  | Add (args : DirectVolAddArgs)
  | Remove (args : DirectVolRemoveArgs)
  | Stats (args : DirectVolStatsArgs)
  | Resize (args : DirectVolResizeArgs)
deriving DecidableEq

/-- `ExecArguments` from args.rs; `vport` is a Rust `u32` with clap
default `1026`, embedded as a `Nat` kept below `2 ^ 32` by the parser. -/
structure ExecArguments where
  sandbox_id : String
  vport : Nat
deriving DecidableEq

/-- `Commands` from args.rs: the eight top-level verbs of `kata-ctl`. -/
inductive Commands where
  | Check (sub : CheckSubCommand)
  | DirectVolume (sub : DirectVolSubcommand)
  | Env (args : EnvArgument)
  | Exec (args : ExecArguments)
  | Factory
  | Iptables (sub : IpTablesArguments)
  | Metrics (sub : MetricsSubCommand)
  | Version
deriving DecidableEq

/-- `impl FromStr for IpTablesArguments` from args.rs: maps the exact
strings `"Get"` and `"Set"` to variants with empty fields, everything
else to `Err("Invalid argument: {s}")`. -/
def IpTablesArguments.from_str (s : String) : Except String IpTablesArguments :=
  if s = "Get" then .ok (.Get "" false)
  else if s = "Set" then .ok (.Set "" false "")
  else .error ("Invalid argument: " ++ s)

/-- The usage-failure kinds of spec §7. -/
inductive UsageFailure where
  | UnknownVerb
  | UnknownSubcommand
  | MissingRequired
  | InvalidValue
  | UnexpectedArgument
  | AmbiguousOrUnknownFlag
deriving DecidableEq

/-- Outcome of one parse: a fully populated invocation, a help request,
or a usage failure. -/
inductive ParseOutcome where
  | success (cmd : Commands)
  | help
  | failure (kind : UsageFailure)
deriving DecidableEq

/-- A token that is treated as a flag rather than a positional: it starts
with `-` and is not the bare `-`. -/
def isFlagToken (s : String) : Bool :=
  match s.data with
  | c :: _ :: _ => c == '-'
  | _ => false

/-- If `t` is `<flag>=<value>` for the given long flag spelling (chars of
`"--flag="`), return the value; clap accepts `--flag=VALUE` alongside
`--flag VALUE` (§4). -/
def eqFlagValue (flag : List Char) (t : String) : Option String :=
  if flag.isPrefixOf t.data then some ⟨t.data.drop flag.length⟩ else none

/-- A help flag (`-h` / `--help`), which short-circuits any scope. -/
def isHelpToken (s : String) : Bool := s = "-h" || s = "--help"

/-- Value of a list of decimal digit characters. -/
def decDigitsVal (cs : List Char) : Nat :=
  cs.foldl (fun a c => a * 10 + (c.toNat - 48)) 0

/-- Rust's `FromStr` for unsigned integers accepts an optional leading
`+` sign before the digits; strip it. -/
def stripPlus (cs : List Char) : List Char :=
  match cs with
  | c :: rest => if c == '+' then rest else c :: rest
  | [] => []

/-- Spec-side predicate: the token is a decimal numeral as accepted by
Rust's unsigned `from_str` — an optional `+` sign followed by one or
more decimal digits. -/
def isDecNumeral (s : String) : Bool :=
  !(stripPlus s.data).isEmpty && (stripPlus s.data).all Char.isDigit

/-- The value denoted by a decimal numeral token. -/
def decNumeralVal (s : String) : Nat := decDigitsVal (stripPlus s.data)

/-- Spec-side predicate: a decimal numeral representable in 32 bits. -/
def isU32Numeral (s : String) : Bool :=
  isDecNumeral s && decide (decNumeralVal s < 2 ^ 32)

/-- Spec-side predicate: a decimal numeral representable in 64 bits. -/
def isU64Numeral (s : String) : Bool :=
  isDecNumeral s && decide (decNumeralVal s < 2 ^ 64)

/-- Rust `from_str` for an unbounded unsigned integer: an optional `+`
sign followed by one or more decimal digits. -/
def parseUnsigned (s : String) : Option Nat :=
  if isDecNumeral s then some (decNumeralVal s) else none

/-- Rust `u32::from_str`, as used by clap for `ExecArguments.vport`:
out-of-range numerals fail (clap reports both failures as value errors). -/
def parseU32 (s : String) : Option Nat :=
  (parseUnsigned s).bind fun n => if n < 2 ^ 32 then some n else none

/-- Rust `u64::from_str`, as used by clap for
`DirectVolResizeArgs.resize_size`. -/
def parseU64 (s : String) : Option Nat :=
  (parseUnsigned s).bind fun n => if n < 2 ^ 64 then some n else none

/-- Modelled from the spec: clap's argument loop for the `env` leaf
(`--json` boolean flag, `-f|--file` optional string, no positionals);
the clap engine itself is not in the repository.  Long flags accept both
`--file VALUE` and `--file=VALUE` (§4); a repeated option keeps the last
value; occurrence counting is not modelled.  `pending` records that the
previous token was `-f`/`--file`, so the current token is its value; a
flag whose value is still pending at the end of the vector is a value
error. -/
def parseEnvArgs : List String → Bool → Option String → Bool → ParseOutcome
  | [], json, file, pending =>
    if pending then .failure .InvalidValue else .success (.Env ⟨json, file⟩)
  | t :: rest, json, file, pending =>
    if pending then parseEnvArgs rest json (some t) false
    else if isHelpToken t then .help
    else if t = "--json" then parseEnvArgs rest true file false
    else if t = "-f" then parseEnvArgs rest json file true
    else if t = "--file" then parseEnvArgs rest json file true
    else
      match eqFlagValue "--file=".data t with
      | some v => parseEnvArgs rest json (some v) false
      | none =>
        if isFlagToken t then .failure .AmbiguousOrUnknownFlag
        else .failure .UnexpectedArgument

/-- Modelled from the spec: clap's argument loop for the `exec` leaf
(required `sandbox_id` positional, `-p|--kata-debug-port <u32>` option
with default 1026); `pending` records that the current token is the
port-flag value. -/
def parseExecArgs : List String → Option String → Option Nat → Bool → ParseOutcome
  | [], sid?, vp?, pending =>
    if pending then .failure .InvalidValue
    else
      match sid? with
      | none => .failure .MissingRequired
      | some sid => .success (.Exec ⟨sid, vp?.getD 1026⟩)
  | t :: rest, sid?, vp?, pending =>
    if pending then
      match parseU32 t with
      | none => .failure .InvalidValue
      | some n => parseExecArgs rest sid? (some n) false
    else if isHelpToken t then .help
    else if t = "-p" then parseExecArgs rest sid? vp? true
    else if t = "--kata-debug-port" then parseExecArgs rest sid? vp? true
    else
      match eqFlagValue "--kata-debug-port=".data t with
      | some v =>
        match parseU32 v with
        | none => .failure .InvalidValue
        | some n => parseExecArgs rest sid? (some n) false
      | none =>
        if isFlagToken t then .failure .AmbiguousOrUnknownFlag
        else if sid?.isSome then .failure .UnexpectedArgument
        else parseExecArgs rest (some t) vp? false

/-- Modelled from the spec: clap's argument loop for `iptables get`
(required `--sand-box <ID>` option, `--v6` boolean flag, no
positionals); `pending` records that the current token is the
`--sand-box` value. -/
def parseIptablesGetArgs : List String → Option String → Bool → Bool → ParseOutcome
  | [], sid?, v6, pending =>
    if pending then .failure .InvalidValue
    else
      match sid? with
      | none => .failure .MissingRequired
      | some sid => .success (.Iptables (.Get sid v6))
  | t :: rest, sid?, v6, pending =>
    if pending then parseIptablesGetArgs rest (some t) v6 false
    else if isHelpToken t then .help
    else if t = "--v6" then parseIptablesGetArgs rest sid? true false
    else if t = "--sand-box" then parseIptablesGetArgs rest sid? v6 true
    else
      match eqFlagValue "--sand-box=".data t with
      | some v => parseIptablesGetArgs rest (some v) v6 false
      | none =>
        if isFlagToken t then .failure .AmbiguousOrUnknownFlag
        else .failure .UnexpectedArgument

/-- Modelled from the spec: clap's argument loop for `iptables set`
(required `--sand-box <ID>` option, `--v6` boolean flag, required `FILE`
positional; clap accepts the positional interleaved with the flags);
`pending` records that the current token is the `--sand-box` value. -/
def parseIptablesSetArgs : List String → Option String → Bool → Option String → Bool → ParseOutcome
  | [], sid?, v6, file?, pending =>
    if pending then .failure .InvalidValue
    else
      match sid?, file? with
      | some sid, some f => .success (.Iptables (.Set sid v6 f))
      | _, _ => .failure .MissingRequired
  | t :: rest, sid?, v6, file?, pending =>
    if pending then parseIptablesSetArgs rest (some t) v6 file? false
    else if isHelpToken t then .help
    else if t = "--v6" then parseIptablesSetArgs rest sid? true file? false
    else if t = "--sand-box" then parseIptablesSetArgs rest sid? v6 file? true
    else
      match eqFlagValue "--sand-box=".data t with
      | some v => parseIptablesSetArgs rest (some v) v6 file? false
      | none =>
        if isFlagToken t then .failure .AmbiguousOrUnknownFlag
        else if file?.isSome then .failure .UnexpectedArgument
        else parseIptablesSetArgs rest sid? v6 (some t) false

/-- Modelled from the spec: clap's argument loop for `direct-volume add`
(two required positionals `volume_path` then `mount_info`). -/
def parseDirectVolAddArgs : List String → Option String → Option String → ParseOutcome
  | [], p?, m? =>
    match p?, m? with
    | some p, some m => .success (.DirectVolume (.Add ⟨p, m⟩))
    | _, _ => .failure .MissingRequired
  | t :: rest, p?, m? =>
    if isHelpToken t then .help
    else if isFlagToken t then .failure .AmbiguousOrUnknownFlag
    else if p?.isNone then parseDirectVolAddArgs rest (some t) m?
    else if m?.isNone then parseDirectVolAddArgs rest p? (some t)
    else .failure .UnexpectedArgument

/-- Modelled from the spec: clap's argument loop for a leaf with a single
required `volume_path` positional (`direct-volume remove` / `stats`). -/
def parseSinglePathArgs (mk : String → Commands) : List String → Option String → ParseOutcome
  | [], p? =>
    match p? with
    | none => .failure .MissingRequired
    | some p => .success (mk p)
  | t :: rest, p? =>
    if isHelpToken t then .help
    else if isFlagToken t then .failure .AmbiguousOrUnknownFlag
    else if p?.isNone then parseSinglePathArgs mk rest (some t)
    else .failure .UnexpectedArgument

/-- Modelled from the spec: clap's argument loop for `direct-volume
resize` (required positionals `volume_path` then `resize_size : u64`). -/
def parseDirectVolResizeArgs : List String → Option String → Option Nat → ParseOutcome
  | [], p?, n? =>
    match p?, n? with
    | some p, some n => .success (.DirectVolume (.Resize ⟨p, n⟩))
    | _, _ => .failure .MissingRequired
  | t :: rest, p?, n? =>
    if isHelpToken t then .help
    else if isFlagToken t then .failure .AmbiguousOrUnknownFlag
    else if p?.isNone then parseDirectVolResizeArgs rest (some t) n?
    else if n?.isNone then
      match parseU64 t with
      | none => .failure .InvalidValue
      | some n => parseDirectVolResizeArgs rest p? (some n)
    else .failure .UnexpectedArgument

/-- Modelled from the spec: clap's argument loop for a leaf with no flags
and no positionals (the `check` subcommands, `metrics metrics-args`,
`factory`, `version`). -/
def parseNoArgs (cmd : Commands) : List String → ParseOutcome
  | [] => .success cmd
  | t :: _ =>
    if isHelpToken t then .help
    else if isFlagToken t then .failure .AmbiguousOrUnknownFlag
    else .failure .UnexpectedArgument

/-- Modelled from the spec: subcommand dispatch for `check` (§6). -/
def parseCheck : List String → ParseOutcome
  | [] => .failure .MissingRequired
  | t :: rest =>
    if isHelpToken t then .help
    else if t = "all" then parseNoArgs (.Check .All) rest
    else if t = "no-network-checks" then parseNoArgs (.Check .NoNetworkChecks) rest
    else if t = "check-version-only" then parseNoArgs (.Check .CheckVersionOnly) rest
    else if t = "only-list-releases" then parseNoArgs (.Check .OnlyListReleases) rest
    else if t = "include-all-releases" then parseNoArgs (.Check .IncludeAllReleases) rest
    else if t = "list" then parseNoArgs (.Check .List) rest
    else if isFlagToken t then .failure .AmbiguousOrUnknownFlag
    else .failure .UnknownSubcommand

/-- Modelled from the spec: subcommand dispatch for `direct-volume` (§6). -/
def parseDirectVolume : List String → ParseOutcome
  | [] => .failure .MissingRequired
  | t :: rest =>
    if isHelpToken t then .help
    else if t = "add" then parseDirectVolAddArgs rest none none
    else if t = "remove" then
      parseSinglePathArgs (fun p => .DirectVolume (.Remove ⟨p⟩)) rest none
    else if t = "stats" then
      parseSinglePathArgs (fun p => .DirectVolume (.Stats ⟨p⟩)) rest none
    else if t = "resize" then parseDirectVolResizeArgs rest none none
    else if isFlagToken t then .failure .AmbiguousOrUnknownFlag
    else .failure .UnknownSubcommand

/-- Modelled from the spec: subcommand dispatch for `iptables` (§6). -/
def parseIptables : List String → ParseOutcome
  | [] => .failure .MissingRequired
  | t :: rest =>
    if isHelpToken t then .help
    else if t = "get" then parseIptablesGetArgs rest none false false
    else if t = "set" then parseIptablesSetArgs rest none false none false
    else if isFlagToken t then .failure .AmbiguousOrUnknownFlag
    else .failure .UnknownSubcommand

/-- Modelled from the spec: subcommand dispatch for `metrics` (§6). -/
def parseMetrics : List String → ParseOutcome
  | [] => .failure .MissingRequired
  | t :: rest =>
    if isHelpToken t then .help
    else if t = "metrics-args" then parseNoArgs (.Metrics .MetricsArgs) rest
    else if isFlagToken t then .failure .AmbiguousOrUnknownFlag
    else .failure .UnknownSubcommand

/-- Modelled from the spec: the top-level parse of the argument vector
(executable name excluded), following the grammar resolution order of
§4: empty vector or help flag renders help; the first positional is
matched against the eight verbs of §6; an unknown verb is a usage
failure. -/
def parse : List String → ParseOutcome
  | [] => .help
  | t :: rest =>
    if isHelpToken t then .help
    else if t = "check" then parseCheck rest
    else if t = "direct-volume" then parseDirectVolume rest
    else if t = "env" then parseEnvArgs rest false none false
    else if t = "exec" then parseExecArgs rest none none false
    else if t = "factory" then parseNoArgs .Factory rest
    else if t = "iptables" then parseIptables rest
    else if t = "metrics" then parseMetrics rest
    else if t = "version" then parseNoArgs .Version rest
    else if isFlagToken t then .failure .AmbiguousOrUnknownFlag
    else .failure .UnknownVerb

/-! Helper lemmas about token classification. -/

theorem isFlagToken_of_isHelpToken {s : String} (h : isHelpToken s = true) :
    isFlagToken s = true := by
  have hs : s = "-h" ∨ s = "--help" := by simpa [isHelpToken] using h
  rcases hs with hs | hs <;> subst hs <;> decide

theorem isHelpToken_eq_false {s : String} (h : isFlagToken s = false) :
    isHelpToken s = false := by
  cases hh : isHelpToken s with
  | false => rfl
  | true => rw [isFlagToken_of_isHelpToken hh] at h; cases h

theorem ne_of_not_flag {s w : String} (h : isFlagToken s = false)
    (hw : isFlagToken w = true) : s ≠ w := by
  intro he; rw [he, hw] at h; cases h

theorem eqFlagValue_none_of_not_flag {c2 : Char} {cs : List Char} {t : String}
    (h : isFlagToken t = false) : eqFlagValue ('-' :: c2 :: cs) t = none := by
  unfold eqFlagValue
  cases ht : t.data with
  | nil => simp [List.isPrefixOf]
  | cons c tail =>
    cases tail with
    | nil => simp [List.isPrefixOf]
    | cons c2' tail2 =>
      unfold isFlagToken at h
      rw [ht] at h
      have hne : ('-' == c) = false := by
        simp only [beq_eq_false_iff_ne] at h ⊢
        exact fun he => h he.symm
      simp [List.isPrefixOf, hne]

/-! Helper lemmas about the numeral parsers. -/

theorem parseU32_lt {s : String} {n : Nat} (h : parseU32 s = some n) : n < 2 ^ 32 := by
  unfold parseU32 parseUnsigned at h
  split at h
  · simp only [Option.some_bind] at h
    split at h
    · cases h; assumption
    · cases h
  · cases h

theorem parseU64_lt {s : String} {n : Nat} (h : parseU64 s = some n) : n < 2 ^ 64 := by
  unfold parseU64 parseUnsigned at h
  split at h
  · simp only [Option.some_bind] at h
    split at h
    · cases h; assumption
    · cases h
  · cases h

theorem parseU32_eq_some {s : String} (h : isU32Numeral s = true) :
    parseU32 s = some (decNumeralVal s) := by
  simp only [isU32Numeral, Bool.and_eq_true, decide_eq_true_eq] at h
  simp only [parseU32, parseUnsigned, h.1, if_true, Option.some_bind]
  exact if_pos h.2

theorem parseU32_eq_none {s : String} (h : isU32Numeral s = false) :
    parseU32 s = none := by
  simp only [isU32Numeral, Bool.and_eq_false_iff] at h
  rcases h with h | h
  · simp [parseU32, parseUnsigned, h]
  · simp only [decide_eq_false_iff_not, not_lt] at h
    cases hd : isDecNumeral s
    · simp [parseU32, parseUnsigned, hd]
    · simp only [parseU32, parseUnsigned, hd, if_true, Option.some_bind]
      exact if_neg (Nat.not_lt.mpr h)

theorem parseU64_eq_some {s : String} (h : isU64Numeral s = true) :
    parseU64 s = some (decNumeralVal s) := by
  simp only [isU64Numeral, Bool.and_eq_true, decide_eq_true_eq] at h
  simp only [parseU64, parseUnsigned, h.1, if_true, Option.some_bind]
  exact if_pos h.2

theorem parseU64_eq_none {s : String} (h : isU64Numeral s = false) :
    parseU64 s = none := by
  simp only [isU64Numeral, Bool.and_eq_false_iff] at h
  rcases h with h | h
  · simp [parseU64, parseUnsigned, h]
  · simp only [decide_eq_false_iff_not, not_lt] at h
    cases hd : isDecNumeral s
    · simp [parseU64, parseUnsigned, hd]
    · simp only [parseU64, parseUnsigned, hd, if_true, Option.some_bind]
      exact if_neg (Nat.not_lt.mpr h)

theorem not_flag_of_isDecNumeral {s : String} (h : isDecNumeral s = true) :
    isFlagToken s = false := by
  unfold isDecNumeral stripPlus at h
  unfold isFlagToken
  cases hs : s.data with
  | nil => rfl
  | cons c tail =>
    cases tail with
    | nil => rfl
    | cons c2 cs2 =>
      rw [hs] at h
      by_cases hc : c = '+'
      · subst hc; rfl
      · have hcb : (c == '+') = false := by simp [hc]
        simp only [hcb, Bool.false_eq_true, if_false, List.isEmpty_cons,
          List.all_cons, Bool.and_eq_true] at h
        have hd : c.isDigit = true := h.2.1
        by_cases hcm : c = '-'
        · subst hcm; cases hd
        · simp [hcm]

/-! Shape lemmas: which invocation each leaf loop can produce. -/

theorem parseNoArgs_success {cmd : Commands} {l : List String} {c : Commands}
    (h : parseNoArgs cmd l = .success c) : c = cmd := by
  cases l with
  | nil => cases h; rfl
  | cons t rest =>
    simp only [parseNoArgs] at h
    repeat' split at h
    all_goals cases h

theorem parseEnvArgs_shape :
    ∀ (l : List String) (j : Bool) (f : Option String) (p : Bool) (c : Commands),
      parseEnvArgs l j f p = .success c → ∃ a, c = Commands.Env a := by
  intro l
  induction l with
  | nil =>
    intro j f p c h
    simp only [parseEnvArgs] at h
    split at h
    · cases h
    · exact ⟨_, (ParseOutcome.success.inj h).symm⟩
  | cons t rest ih =>
    intro j f p c h
    simp only [parseEnvArgs] at h
    repeat' split at h
    all_goals first | cases h | exact ih _ _ _ _ h

theorem parseExecArgs_bound :
    ∀ (l : List String) (sid? : Option String) (vp? : Option Nat) (p : Bool)
      (c : Commands), (∀ n, vp? = some n → n < 2 ^ 32) →
      parseExecArgs l sid? vp? p = .success c →
      ∃ a, c = Commands.Exec a ∧ a.vport < 2 ^ 32 := by
  intro l
  induction l with
  | nil =>
    intro sid? vp? p c hv h
    simp only [parseExecArgs] at h
    split at h
    · cases h
    · split at h
      · cases h
      · refine ⟨_, (ParseOutcome.success.inj h).symm, ?_⟩
        cases vp? with
        | none => show (1026 : Nat) < 2 ^ 32; norm_num
        | some n => exact hv n rfl
  | cons t rest ih =>
    intro sid? vp? p c hv h
    simp only [parseExecArgs] at h
    repeat' split at h
    all_goals
      first
        | cases h
        | exact ih _ _ _ _ hv h
        | exact ih _ _ _ _ (fun m hm => by cases hm; exact parseU32_lt (by assumption)) h

theorem parseIptablesGetArgs_shape :
    ∀ (l : List String) (sid? : Option String) (v6 p : Bool) (c : Commands),
      parseIptablesGetArgs l sid? v6 p = .success c →
      ∃ sid w, c = Commands.Iptables (.Get sid w) := by
  intro l
  induction l with
  | nil =>
    intro sid? v6 p c h
    simp only [parseIptablesGetArgs] at h
    split at h
    · cases h
    · split at h
      · cases h
      · exact ⟨_, _, (ParseOutcome.success.inj h).symm⟩
  | cons t rest ih =>
    intro sid? v6 p c h
    simp only [parseIptablesGetArgs] at h
    repeat' split at h
    all_goals first | cases h | exact ih _ _ _ _ h

theorem parseIptablesSetArgs_shape :
    ∀ (l : List String) (sid? : Option String) (v6 : Bool) (file? : Option String)
      (p : Bool) (c : Commands),
      parseIptablesSetArgs l sid? v6 file? p = .success c →
      ∃ sid w f, c = Commands.Iptables (.Set sid w f) := by
  intro l
  induction l with
  | nil =>
    intro sid? v6 file? p c h
    simp only [parseIptablesSetArgs] at h
    split at h
    · cases h
    · split at h
      · exact ⟨_, _, _, (ParseOutcome.success.inj h).symm⟩
      · cases h
  | cons t rest ih =>
    intro sid? v6 file? p c h
    simp only [parseIptablesSetArgs] at h
    repeat' split at h
    all_goals first | cases h | exact ih _ _ _ _ _ h

theorem parseDirectVolAddArgs_shape :
    ∀ (l : List String) (p? m? : Option String) (c : Commands),
      parseDirectVolAddArgs l p? m? = .success c →
      ∃ a, c = Commands.DirectVolume (.Add a) := by
  intro l
  induction l with
  | nil =>
    intro p? m? c h
    simp only [parseDirectVolAddArgs] at h
    split at h
    · exact ⟨_, (ParseOutcome.success.inj h).symm⟩
    · cases h
  | cons t rest ih =>
    intro p? m? c h
    simp only [parseDirectVolAddArgs] at h
    repeat' split at h
    all_goals first | cases h | exact ih _ _ _ h

theorem parseSinglePathArgs_shape :
    ∀ (mk : String → Commands) (l : List String) (p? : Option String) (c : Commands),
      parseSinglePathArgs mk l p? = .success c → ∃ p, c = mk p := by
  intro mk l
  induction l with
  | nil =>
    intro p? c h
    simp only [parseSinglePathArgs] at h
    split at h
    · cases h
    · exact ⟨_, (ParseOutcome.success.inj h).symm⟩
  | cons t rest ih =>
    intro p? c h
    simp only [parseSinglePathArgs] at h
    repeat' split at h
    all_goals first | cases h | exact ih _ _ h

theorem parseDirectVolResizeArgs_shape :
    ∀ (l : List String) (p? : Option String) (n? : Option Nat) (c : Commands),
      parseDirectVolResizeArgs l p? n? = .success c →
      ∃ a, c = Commands.DirectVolume (.Resize a) := by
  intro l
  induction l with
  | nil =>
    intro p? n? c h
    simp only [parseDirectVolResizeArgs] at h
    split at h
    · exact ⟨_, (ParseOutcome.success.inj h).symm⟩
    · cases h
  | cons t rest ih =>
    intro p? n? c h
    simp only [parseDirectVolResizeArgs] at h
    repeat' split at h
    all_goals first | cases h | exact ih _ _ _ h

/-! Shape lemmas for the subcommand dispatchers. -/

theorem parseCheck_shape :
    ∀ (l : List String) (c : Commands), parseCheck l = .success c →
      ∃ sc, c = Commands.Check sc := by
  intro l c h
  cases l with
  | nil => cases h
  | cons t rest =>
    simp only [parseCheck] at h
    repeat' split at h
    all_goals first | cases h | exact ⟨_, parseNoArgs_success h⟩

theorem parseDirectVolume_shape :
    ∀ (l : List String) (c : Commands), parseDirectVolume l = .success c →
      ∃ s, c = Commands.DirectVolume s := by
  intro l c h
  cases l with
  | nil => cases h
  | cons t rest =>
    simp only [parseDirectVolume] at h
    repeat' split at h
    all_goals try cases h
    · obtain ⟨a, ha⟩ := parseDirectVolAddArgs_shape _ _ _ _ h; exact ⟨_, ha⟩
    · obtain ⟨p, hp⟩ := parseSinglePathArgs_shape _ _ _ _ h; exact ⟨_, hp⟩
    · obtain ⟨p, hp⟩ := parseSinglePathArgs_shape _ _ _ _ h; exact ⟨_, hp⟩
    · obtain ⟨a, ha⟩ := parseDirectVolResizeArgs_shape _ _ _ _ h; exact ⟨_, ha⟩

theorem parseIptables_shape :
    ∀ (l : List String) (c : Commands), parseIptables l = .success c →
      ∃ s, c = Commands.Iptables s := by
  intro l c h
  cases l with
  | nil => cases h
  | cons t rest =>
    simp only [parseIptables] at h
    repeat' split at h
    all_goals try cases h
    · obtain ⟨sid, w, hg⟩ := parseIptablesGetArgs_shape _ _ _ _ _ h; exact ⟨_, hg⟩
    · obtain ⟨sid, w, f, hs⟩ := parseIptablesSetArgs_shape _ _ _ _ _ _ h; exact ⟨_, hs⟩

theorem parseMetrics_shape :
    ∀ (l : List String) (c : Commands), parseMetrics l = .success c →
      ∃ m, c = Commands.Metrics m := by
  intro l c h
  cases l with
  | nil => cases h
  | cons t rest =>
    simp only [parseMetrics] at h
    repeat' split at h
    all_goals first | cases h | exact ⟨_, parseNoArgs_success h⟩

/-! Default-preservation lemmas: an optional field not mentioned in the
token list keeps the value it entered the loop with. -/

theorem parseEnvArgs_json_default :
    ∀ (l : List String) (j : Bool) (f : Option String) (p : Bool) (b : Bool)
      (g : Option String), "--json" ∉ l →
      parseEnvArgs l j f p = .success (.Env ⟨b, g⟩) → b = j := by
  intro l
  induction l with
  | nil =>
    intro j f p b g _ h
    simp only [parseEnvArgs] at h
    split at h
    · cases h
    · simp only [ParseOutcome.success.injEq, Commands.Env.injEq,
        EnvArgument.mk.injEq] at h
      exact h.1.symm
  | cons t rest ih =>
    intro j f p b g hm h
    rw [List.mem_cons, not_or] at hm
    have hne : ¬(t = "--json") := fun he => hm.1 he.symm
    simp only [parseEnvArgs, hne, if_false] at h
    repeat' split at h
    all_goals first | cases h | exact ih _ _ _ _ _ hm.2 h

theorem parseEnvArgs_file_default :
    ∀ (l : List String) (j : Bool) (f : Option String) (b : Bool)
      (g : Option String), "-f" ∉ l → "--file" ∉ l →
      (∀ t ∈ l, List.isPrefixOf "--file=".data t.data = false) →
      parseEnvArgs l j f false = .success (.Env ⟨b, g⟩) → g = f := by
  intro l
  induction l with
  | nil =>
    intro j f b g _ _ _ h
    simp only [parseEnvArgs] at h
    simp only [if_false, ParseOutcome.success.injEq, Commands.Env.injEq,
      EnvArgument.mk.injEq, Bool.false_eq_true, reduceIte] at h
    exact h.2.symm
  | cons t rest ih =>
    intro j f b g hm1 hm2 hm3 h
    rw [List.mem_cons, not_or] at hm1 hm2
    have hne1 : ¬(t = "-f") := fun he => hm1.1 he.symm
    have hne2 : ¬(t = "--file") := fun he => hm2.1 he.symm
    have hfv : eqFlagValue "--file=".data t = none := by
      simp [eqFlagValue, hm3 t (List.mem_cons_self t rest)]
    simp only [parseEnvArgs, hne1, hne2, hfv, if_false, Bool.false_eq_true,
      reduceIte] at h
    repeat' split at h
    all_goals
      first
        | cases h
        | exact ih _ _ _ _ hm1.2 hm2.2 (fun u hu => hm3 u (List.mem_cons_of_mem t hu)) h

theorem parseIptablesGetArgs_v6_default :
    ∀ (l : List String) (sid? : Option String) (v6 p : Bool) (sid : String)
      (w : Bool), "--v6" ∉ l →
      parseIptablesGetArgs l sid? v6 p = .success (.Iptables (.Get sid w)) →
      w = v6 := by
  intro l
  induction l with
  | nil =>
    intro sid? v6 p sid w _ h
    simp only [parseIptablesGetArgs] at h
    split at h
    · cases h
    · split at h
      · cases h
      · simp only [ParseOutcome.success.injEq, Commands.Iptables.injEq,
          IpTablesArguments.Get.injEq] at h
        exact h.2.symm
  | cons t rest ih =>
    intro sid? v6 p sid w hm h
    rw [List.mem_cons, not_or] at hm
    have hne : ¬(t = "--v6") := fun he => hm.1 he.symm
    simp only [parseIptablesGetArgs, hne, if_false] at h
    repeat' split at h
    all_goals first | cases h | exact ih _ _ _ _ _ hm.2 h

theorem parseIptablesSetArgs_v6_default :
    ∀ (l : List String) (sid? : Option String) (v6 : Bool) (file? : Option String)
      (p : Bool) (sid : String) (w : Bool) (f : String), "--v6" ∉ l →
      parseIptablesSetArgs l sid? v6 file? p = .success (.Iptables (.Set sid w f)) →
      w = v6 := by
  intro l
  induction l with
  | nil =>
    intro sid? v6 file? p sid w f _ h
    simp only [parseIptablesSetArgs] at h
    split at h
    · cases h
    · split at h
      · simp only [ParseOutcome.success.injEq, Commands.Iptables.injEq,
          IpTablesArguments.Set.injEq] at h
        exact h.2.1.symm
      · cases h
  | cons t rest ih =>
    intro sid? v6 file? p sid w f hm h
    rw [List.mem_cons, not_or] at hm
    have hne : ¬(t = "--v6") := fun he => hm.1 he.symm
    simp only [parseIptablesSetArgs, hne, if_false] at h
    repeat' split at h
    all_goals first | cases h | exact ih _ _ _ _ _ _ _ hm.2 h

theorem parseExecArgs_vport_default :
    ∀ (l : List String) (sid? : Option String) (vp? : Option Nat)
      (a : ExecArguments), "-p" ∉ l → "--kata-debug-port" ∉ l →
      (∀ t ∈ l, List.isPrefixOf "--kata-debug-port=".data t.data = false) →
      parseExecArgs l sid? vp? false = .success (.Exec a) →
      a.vport = vp?.getD 1026 := by
  intro l
  induction l with
  | nil =>
    intro sid? vp? a _ _ _ h
    simp only [parseExecArgs, Bool.false_eq_true, reduceIte] at h
    split at h
    · cases h
    · simp only [ParseOutcome.success.injEq, Commands.Exec.injEq] at h
      rw [← h]
  | cons t rest ih =>
    intro sid? vp? a hm1 hm2 hm3 h
    rw [List.mem_cons, not_or] at hm1 hm2
    have hne1 : ¬(t = "-p") := fun he => hm1.1 he.symm
    have hne2 : ¬(t = "--kata-debug-port") := fun he => hm2.1 he.symm
    have hfv : eqFlagValue "--kata-debug-port=".data t = none := by
      simp [eqFlagValue, hm3 t (List.mem_cons_self t rest)]
    simp only [parseExecArgs, hne1, hne2, hfv, if_false, Bool.false_eq_true,
      reduceIte] at h
    repeat' split at h
    all_goals
      first
        | cases h
        | exact ih _ _ _ hm1.2 hm2.2 (fun u hu => hm3 u (List.mem_cons_of_mem t hu)) h

/-- Any successful parse that produces an `Exec` invocation keeps `vport`
below `2 ^ 32`. -/
theorem parse_exec_vport_lt :
    ∀ (args : List String) (a : ExecArguments),
      parse args = .success (.Exec a) → a.vport < 2 ^ 32 := by
  intro args a h
  cases args with
  | nil => cases h
  | cons t rest =>
    simp only [parse] at h
    repeat' split at h
    all_goals try cases h
    · obtain ⟨sc, hc⟩ := parseCheck_shape _ _ h; cases hc
    · obtain ⟨s, hs⟩ := parseDirectVolume_shape _ _ h; cases hs
    · obtain ⟨e, he⟩ := parseEnvArgs_shape _ _ _ _ _ h; cases he
    · obtain ⟨a2, ha2, hb⟩ := parseExecArgs_bound _ _ _ _ _ (fun n hn => by cases hn) h
      cases ha2; exact hb
    · have hf := parseNoArgs_success h; cases hf
    · obtain ⟨s, hs⟩ := parseIptables_shape _ _ h; cases hs
    · obtain ⟨m, hm⟩ := parseMetrics_shape _ _ h; cases hm
    · have hv := parseNoArgs_success h; cases hv

/-! The claims. -/

/-- C1: the parser accepts exactly the eight verbs `check`,
`direct-volume`, `env`, `exec`, `factory`, `iptables`, `metrics`,
`version`: an argument vector starting with one of them parses into that
verb's schema (every success is tagged with that verb), and one starting
with any other word fails with an UnknownVerb usage failure. -/
theorem C1_top_level_verbs :
    (∀ rest c, parse ("check" :: rest) = .success c → ∃ sc, c = Commands.Check sc) ∧
    (∀ rest c, parse ("direct-volume" :: rest) = .success c →
      ∃ s, c = Commands.DirectVolume s) ∧
    (∀ rest c, parse ("env" :: rest) = .success c → ∃ a, c = Commands.Env a) ∧
    (∀ rest c, parse ("exec" :: rest) = .success c → ∃ a, c = Commands.Exec a) ∧
    (∀ rest c, parse ("factory" :: rest) = .success c → c = Commands.Factory) ∧
    (∀ rest c, parse ("iptables" :: rest) = .success c → ∃ s, c = Commands.Iptables s) ∧
    (∀ rest c, parse ("metrics" :: rest) = .success c → ∃ m, c = Commands.Metrics m) ∧
    (∀ rest c, parse ("version" :: rest) = .success c → c = Commands.Version) ∧
    (∀ w rest, w ∉ (["check", "direct-volume", "env", "exec", "factory",
        "iptables", "metrics", "version"] : List String) → isFlagToken w = false →
      parse (w :: rest) = .failure .UnknownVerb) ∧
    parse ["bogus"] = .failure .UnknownVerb := by
  refine ⟨?_, ?_, ?_, ?_, ?_, ?_, ?_, ?_, ?_, by decide⟩
  · intro rest c h
    rw [show parse ("check" :: rest) = parseCheck rest from rfl] at h
    exact parseCheck_shape _ _ h
  · intro rest c h
    rw [show parse ("direct-volume" :: rest) = parseDirectVolume rest from rfl] at h
    exact parseDirectVolume_shape _ _ h
  · intro rest c h
    rw [show parse ("env" :: rest) = parseEnvArgs rest false none false from rfl] at h
    exact parseEnvArgs_shape _ _ _ _ _ h
  · intro rest c h
    rw [show parse ("exec" :: rest) = parseExecArgs rest none none false from rfl] at h
    obtain ⟨a, ha, _⟩ := parseExecArgs_bound _ _ _ _ _ (fun n hn => by cases hn) h
    exact ⟨a, ha⟩
  · intro rest c h
    rw [show parse ("factory" :: rest) = parseNoArgs Commands.Factory rest from rfl] at h
    exact parseNoArgs_success h
  · intro rest c h
    rw [show parse ("iptables" :: rest) = parseIptables rest from rfl] at h
    exact parseIptables_shape _ _ h
  · intro rest c h
    rw [show parse ("metrics" :: rest) = parseMetrics rest from rfl] at h
    exact parseMetrics_shape _ _ h
  · intro rest c h
    rw [show parse ("version" :: rest) = parseNoArgs Commands.Version rest from rfl] at h
    exact parseNoArgs_success h
  · intro w rest hmem hflag
    simp only [List.mem_cons, List.not_mem_nil, or_false, not_or] at hmem
    obtain ⟨n1, n2, n3, n4, n5, n6, n7, n8⟩ := hmem
    have hh : isHelpToken w = false := isHelpToken_eq_false hflag
    simp [parse, hh, hflag, n1, n2, n3, n4, n5, n6, n7, n8]

/-- C1 witness: the hypotheses of the universally quantified parts are
satisfiable at concrete inputs. -/
theorem C1_top_level_verbs_witness :
    (∃ sc, Commands.Check CheckSubCommand.List = Commands.Check sc) ∧
    parse ["bogus", "x"] = .failure .UnknownVerb :=
  ⟨C1_top_level_verbs.1 ["list"] (Commands.Check CheckSubCommand.List) (by decide),
   C1_top_level_verbs.2.2.2.2.2.2.2.2.1 "bogus" ["x"] (by decide) (by decide)⟩

/-- C2 counterexample: an argument vector carrying an explicit
empty-string value for the required `--sand-box` field still parses
successfully, so "no argument vector containing an empty-string value
for such a field parses successfully" fails on the code. -/
theorem C2_counterexample :
    parse ["iptables", "get", "--sand-box", ""] =
      .success (.Iptables (.Get "" false)) := by decide

/-- C2 (amended): every field declared required must be supplied —
omitting it makes the parse fail with MissingRequired — but a supplied
value may be the empty string: `iptables get --sand-box ""` parses to
`Get{sandbox_id=""}`. -/
theorem C2_required_presence :
    parse ["iptables", "get"] = .failure .MissingRequired ∧
    parse ["iptables", "get", "--v6"] = .failure .MissingRequired ∧
    parse ["iptables", "set", "rules.txt"] = .failure .MissingRequired ∧
    parse ["iptables", "set", "--sand-box", "s1", "--v6"] = .failure .MissingRequired ∧
    parse ["exec"] = .failure .MissingRequired ∧
    parse ["direct-volume", "add", "p"] = .failure .MissingRequired ∧
    parse ["direct-volume", "remove"] = .failure .MissingRequired ∧
    parse ["direct-volume", "stats"] = .failure .MissingRequired ∧
    parse ["direct-volume", "resize", "p"] = .failure .MissingRequired ∧
    parse ["iptables", "get", "--sand-box", ""] =
      .success (.Iptables (.Get "" false)) := by decide

/-- C3: for the `iptables` verb, `--sand-box <ID>` is required for both
`get` and `set`, `--v6` is a boolean flag defaulting to false, and `set`
additionally requires a FILE positional; `iptables get --sand-box s1
--v6` parses to `Get{sandbox_id="s1", v6=true}` and `iptables set
rules.txt` fails with MissingRequired. -/
theorem C3_iptables_flags :
    parse ["iptables", "get", "--sand-box", "s1", "--v6"] =
      .success (.Iptables (.Get "s1" true)) ∧
    parse ["iptables", "get", "--sand-box", "s1"] =
      .success (.Iptables (.Get "s1" false)) ∧
    parse ["iptables", "get"] = .failure .MissingRequired ∧
    parse ["iptables", "set", "rules.txt"] = .failure .MissingRequired ∧
    parse ["iptables", "set", "--sand-box", "s1", "rules.txt"] =
      .success (.Iptables (.Set "s1" false "rules.txt")) ∧
    parse ["iptables", "set", "--sand-box", "s1"] = .failure .MissingRequired := by
  decide

/-- C4: optional fields absent from the argument vector take their
documented defaults — `json=false`, `file=none` for `env` (so
`kata-ctl env` parses to `Env{json=false, file=none}`), `v6=false` for
`iptables get`/`set`, and `vport=1026` for `exec`. -/
theorem C4_defaults :
    parse ["env"] = .success (.Env ⟨false, none⟩) ∧
    parse ["exec", "abc123"] = .success (.Exec ⟨"abc123", 1026⟩) ∧
    parse ["iptables", "get", "--sand-box", "s1"] =
      .success (.Iptables (.Get "s1" false)) ∧
    parse ["iptables", "set", "--sand-box", "s1", "f.txt"] =
      .success (.Iptables (.Set "s1" false "f.txt")) ∧
    (∀ args b g, "--json" ∉ args →
      parse ("env" :: args) = .success (.Env ⟨b, g⟩) → b = false) ∧
    (∀ args b g, "-f" ∉ args → "--file" ∉ args →
      (∀ t ∈ args, List.isPrefixOf "--file=".data t.data = false) →
      parse ("env" :: args) = .success (.Env ⟨b, g⟩) → g = none) ∧
    (∀ args sid w, "--v6" ∉ args →
      parse ("iptables" :: "get" :: args) = .success (.Iptables (.Get sid w)) →
      w = false) ∧
    (∀ args sid w f, "--v6" ∉ args →
      parse ("iptables" :: "set" :: args) = .success (.Iptables (.Set sid w f)) →
      w = false) ∧
    (∀ args a, "-p" ∉ args → "--kata-debug-port" ∉ args →
      (∀ t ∈ args, List.isPrefixOf "--kata-debug-port=".data t.data = false) →
      parse ("exec" :: args) = .success (.Exec a) → a.vport = 1026) := by
  refine ⟨by decide, by decide, by decide, by decide, ?_, ?_, ?_, ?_, ?_⟩
  · intro args b g hm h
    rw [show parse ("env" :: args) = parseEnvArgs args false none false from rfl] at h
    exact parseEnvArgs_json_default _ _ _ _ _ _ hm h
  · intro args b g hm1 hm2 hm3 h
    rw [show parse ("env" :: args) = parseEnvArgs args false none false from rfl] at h
    exact parseEnvArgs_file_default _ _ _ _ _ hm1 hm2 hm3 h
  · intro args sid w hm h
    rw [show parse ("iptables" :: "get" :: args) =
      parseIptablesGetArgs args none false false from rfl] at h
    exact parseIptablesGetArgs_v6_default _ _ _ _ _ _ hm h
  · intro args sid w f hm h
    rw [show parse ("iptables" :: "set" :: args) =
      parseIptablesSetArgs args none false none false from rfl] at h
    exact parseIptablesSetArgs_v6_default _ _ _ _ _ _ _ _ hm h
  · intro args a hm1 hm2 hm3 h
    rw [show parse ("exec" :: args) = parseExecArgs args none none false from rfl] at h
    exact parseExecArgs_vport_default _ _ _ _ hm1 hm2 hm3 h

/-- C4 witness: the hypotheses of the universally quantified parts are
satisfiable at concrete inputs. -/
theorem C4_defaults_witness :
    (false : Bool) = false ∧
    (none : Option String) = none ∧
    (ExecArguments.mk "abc123" 1026).vport = 1026 :=
  ⟨C4_defaults.2.2.2.2.1 [] false none (by decide) (by decide),
   C4_defaults.2.2.2.2.2.1 [] false none (by decide) (by decide) (by simp) (by decide),
   C4_defaults.2.2.2.2.2.2.2.2 ["abc123"] ⟨"abc123", 1026⟩ (by decide) (by decide)
     (by decide) (by decide)⟩

/-- C5 counterexample: the claim quantifies over every path `p`, but for
the path `--help` the parse yields the help outcome rather than a
successful Resize invocation. -/
theorem C5_counterexample :
    parse ["direct-volume", "resize", "--help", "5"] = .help ∧
    parse ["direct-volume", "resize", "--help", "5"] ≠
      .success (.DirectVolume (.Resize ⟨"--help", 5⟩)) := by decide

/-- C5 (amended): `direct-volume resize` takes the two positionals
`volume_path` then `resize_size:u64` in order: for every path `p` that
is not a flag token (does not begin with `-`) and every decimal numeral
`n` representable in 64 bits, `direct-volume resize p n` parses to
`Resize{volume_path=p, resize_size=n}`; a second positional that is not
flag-like and not representable as a u64 fails with InvalidValue. -/
theorem C5_resize (p n m : String) (hp : isFlagToken p = false)
    (hn : isU64Numeral n = true) (hm : isFlagToken m = false)
    (hmn : isU64Numeral m = false) :
    parse ["direct-volume", "resize", p, n] =
      .success (.DirectVolume (.Resize ⟨p, decNumeralVal n⟩)) ∧
    parse ["direct-volume", "resize", p, m] = .failure .InvalidValue ∧
    parse ["direct-volume", "resize", "/dev/foo", "1073741824"] =
      .success (.DirectVolume (.Resize ⟨"/dev/foo", 1073741824⟩)) := by
  have hd : isDecNumeral n = true := by
    have hn2 := hn
    simp only [isU64Numeral, Bool.and_eq_true] at hn2
    exact hn2.1
  have hfn : isFlagToken n = false := not_flag_of_isDecNumeral hd
  have hhp : isHelpToken p = false := isHelpToken_eq_false hp
  have hhn : isHelpToken n = false := isHelpToken_eq_false hfn
  have hhm : isHelpToken m = false := isHelpToken_eq_false hm
  refine ⟨?_, ?_, by decide⟩
  · rw [show parse ["direct-volume", "resize", p, n] =
      parseDirectVolResizeArgs [p, n] none none from rfl]
    simp [parseDirectVolResizeArgs, hhp, hp, hfn, hhn, parseU64_eq_some hn]
  · rw [show parse ["direct-volume", "resize", p, m] =
      parseDirectVolResizeArgs [p, m] none none from rfl]
    simp [parseDirectVolResizeArgs, hhp, hp, hm, hhm, parseU64_eq_none hmn]

/-- C5 witness: the amended theorem applies at the spec's concrete
example and at a non-numeric second positional. -/
theorem C5_resize_witness :
    parse ["direct-volume", "resize", "/dev/foo", "1073741824"] =
      .success (.DirectVolume (.Resize ⟨"/dev/foo", 1073741824⟩)) ∧
    parse ["direct-volume", "resize", "/dev/foo", "abc"] = .failure .InvalidValue :=
  ⟨(C5_resize "/dev/foo" "1073741824" "abc" (by decide) (by decide) (by decide)
      (by decide)).2.2,
   (C5_resize "/dev/foo" "1073741824" "abc" (by decide) (by decide) (by decide)
      (by decide)).2.1⟩

/-- C6: subcommand names round-trip — for every verb/subcommand pair of
the grammar, any successful parse of `<verb> <subcmd> ...` is tagged
exactly `<verb>/<subcmd>`, and the six `check` subcommand spellings
parse to their corresponding `CheckSubCommand` variants, with
`check list` yielding `Check/ListChecks`. -/
theorem C6_subcommand_round_trip :
    parse ["check", "all"] = .success (.Check .All) ∧
    parse ["check", "no-network-checks"] = .success (.Check .NoNetworkChecks) ∧
    parse ["check", "check-version-only"] = .success (.Check .CheckVersionOnly) ∧
    parse ["check", "only-list-releases"] = .success (.Check .OnlyListReleases) ∧
    parse ["check", "include-all-releases"] = .success (.Check .IncludeAllReleases) ∧
    parse ["check", "list"] = .success (.Check .List) ∧
    parse ["metrics", "metrics-args"] = .success (.Metrics .MetricsArgs) ∧
    (∀ rest c, parse ("check" :: "all" :: rest) = .success c → c = .Check .All) ∧
    (∀ rest c, parse ("check" :: "no-network-checks" :: rest) = .success c →
      c = .Check .NoNetworkChecks) ∧
    (∀ rest c, parse ("check" :: "check-version-only" :: rest) = .success c →
      c = .Check .CheckVersionOnly) ∧
    (∀ rest c, parse ("check" :: "only-list-releases" :: rest) = .success c →
      c = .Check .OnlyListReleases) ∧
    (∀ rest c, parse ("check" :: "include-all-releases" :: rest) = .success c →
      c = .Check .IncludeAllReleases) ∧
    (∀ rest c, parse ("check" :: "list" :: rest) = .success c → c = .Check .List) ∧
    (∀ rest c, parse ("metrics" :: "metrics-args" :: rest) = .success c →
      c = .Metrics .MetricsArgs) ∧
    (∀ rest c, parse ("direct-volume" :: "add" :: rest) = .success c →
      ∃ a, c = .DirectVolume (.Add a)) ∧
    (∀ rest c, parse ("direct-volume" :: "remove" :: rest) = .success c →
      ∃ a, c = .DirectVolume (.Remove a)) ∧
    (∀ rest c, parse ("direct-volume" :: "stats" :: rest) = .success c →
      ∃ a, c = .DirectVolume (.Stats a)) ∧
    (∀ rest c, parse ("direct-volume" :: "resize" :: rest) = .success c →
      ∃ a, c = .DirectVolume (.Resize a)) ∧
    (∀ rest c, parse ("iptables" :: "get" :: rest) = .success c →
      ∃ sid v6, c = .Iptables (.Get sid v6)) ∧
    (∀ rest c, parse ("iptables" :: "set" :: rest) = .success c →
      ∃ sid v6 f, c = .Iptables (.Set sid v6 f)) := by
  refine ⟨by decide, by decide, by decide, by decide, by decide, by decide, by decide,
    ?_, ?_, ?_, ?_, ?_, ?_, ?_, ?_, ?_, ?_, ?_, ?_, ?_⟩
  · intro rest c h
    rw [show parse ("check" :: "all" :: rest) =
      parseNoArgs (.Check .All) rest from rfl] at h
    exact parseNoArgs_success h
  · intro rest c h
    rw [show parse ("check" :: "no-network-checks" :: rest) =
      parseNoArgs (.Check .NoNetworkChecks) rest from rfl] at h
    exact parseNoArgs_success h
  · intro rest c h
    rw [show parse ("check" :: "check-version-only" :: rest) =
      parseNoArgs (.Check .CheckVersionOnly) rest from rfl] at h
    exact parseNoArgs_success h
  · intro rest c h
    rw [show parse ("check" :: "only-list-releases" :: rest) =
      parseNoArgs (.Check .OnlyListReleases) rest from rfl] at h
    exact parseNoArgs_success h
  · intro rest c h
    rw [show parse ("check" :: "include-all-releases" :: rest) =
      parseNoArgs (.Check .IncludeAllReleases) rest from rfl] at h
    exact parseNoArgs_success h
  · intro rest c h
    rw [show parse ("check" :: "list" :: rest) =
      parseNoArgs (.Check .List) rest from rfl] at h
    exact parseNoArgs_success h
  · intro rest c h
    rw [show parse ("metrics" :: "metrics-args" :: rest) =
      parseNoArgs (.Metrics .MetricsArgs) rest from rfl] at h
    exact parseNoArgs_success h
  · intro rest c h
    rw [show parse ("direct-volume" :: "add" :: rest) =
      parseDirectVolAddArgs rest none none from rfl] at h
    exact parseDirectVolAddArgs_shape _ _ _ _ h
  · intro rest c h
    rw [show parse ("direct-volume" :: "remove" :: rest) =
      parseSinglePathArgs (fun p => .DirectVolume (.Remove ⟨p⟩)) rest none from rfl] at h
    obtain ⟨p, hp⟩ := parseSinglePathArgs_shape _ _ _ _ h
    exact ⟨⟨p⟩, hp⟩
  · intro rest c h
    rw [show parse ("direct-volume" :: "stats" :: rest) =
      parseSinglePathArgs (fun p => .DirectVolume (.Stats ⟨p⟩)) rest none from rfl] at h
    obtain ⟨p, hp⟩ := parseSinglePathArgs_shape _ _ _ _ h
    exact ⟨⟨p⟩, hp⟩
  · intro rest c h
    rw [show parse ("direct-volume" :: "resize" :: rest) =
      parseDirectVolResizeArgs rest none none from rfl] at h
    exact parseDirectVolResizeArgs_shape _ _ _ _ h
  · intro rest c h
    rw [show parse ("iptables" :: "get" :: rest) =
      parseIptablesGetArgs rest none false false from rfl] at h
    exact parseIptablesGetArgs_shape _ _ _ _ _ h
  · intro rest c h
    rw [show parse ("iptables" :: "set" :: rest) =
      parseIptablesSetArgs rest none false none false from rfl] at h
    exact parseIptablesSetArgs_shape _ _ _ _ _ _ h

/-- C6 witness: the tag-preservation parts apply at concrete inputs. -/
theorem C6_subcommand_round_trip_witness :
    Commands.Check CheckSubCommand.All = Commands.Check CheckSubCommand.All ∧
    (∃ a, Commands.DirectVolume (.Add ⟨"p", "m"⟩) = Commands.DirectVolume (.Add a)) :=
  ⟨C6_subcommand_round_trip.2.2.2.2.2.2.2.1 [] (.Check .All) (by decide),
   C6_subcommand_round_trip.2.2.2.2.2.2.2.2.2.2.2.2.2.2.1 ["p", "m"]
     (.DirectVolume (.Add ⟨"p", "m"⟩)) (by decide)⟩

/-- C7: `exec` takes one required `sandbox_id` positional and an
optional `-p`/`--kata-debug-port` u32 flag: `exec abc123 -p 2048` yields
`Exec{sandbox_id="abc123", vport=2048}` and `exec abc123` yields
`vport=1026`. -/
theorem C7_exec :
    parse ["exec", "abc123", "-p", "2048"] = .success (.Exec ⟨"abc123", 2048⟩) ∧
    parse ["exec", "abc123", "--kata-debug-port", "2048"] =
      .success (.Exec ⟨"abc123", 2048⟩) ∧
    parse ["exec", "abc123"] = .success (.Exec ⟨"abc123", 1026⟩) ∧
    parse ["exec"] = .failure .MissingRequired := by decide

/-- C8: the `-p`/`--kata-debug-port` value fails with InvalidValue
exactly when it is not a decimal numeral representable in 32 bits (both
non-numeric tokens and out-of-range numerals), and no successful parse
carries a `vport` outside 32 bits. -/
theorem C8_vport_invalid :
    parse ["exec", "abc123", "-p", "notanumber"] = .failure .InvalidValue ∧
    parse ["exec", "abc123", "-p", "4294967296"] = .failure .InvalidValue ∧
    (∀ sid v, isFlagToken sid = false →
      ((parse ["exec", sid, "-p", v] = .failure .InvalidValue) ↔
        isU32Numeral v = false) ∧
      (isU32Numeral v = true →
        parse ["exec", sid, "-p", v] = .success (.Exec ⟨sid, decNumeralVal v⟩))) ∧
    (∀ args a, parse args = .success (.Exec a) → a.vport < 2 ^ 32) := by
  refine ⟨by decide, by decide, ?_, parse_exec_vport_lt⟩
  intro sid v hflag
  have hh : isHelpToken sid = false := isHelpToken_eq_false hflag
  have hne1 : sid ≠ "-p" := ne_of_not_flag hflag (by decide)
  have hne2 : sid ≠ "--kata-debug-port" := ne_of_not_flag hflag (by decide)
  have hfv : eqFlagValue "--kata-debug-port=".data sid = none :=
    eqFlagValue_none_of_not_flag hflag
  cases hv : isU32Numeral v with
  | true =>
    have hs : parse ["exec", sid, "-p", v] =
        .success (.Exec ⟨sid, decNumeralVal v⟩) := by
      rw [show parse ["exec", sid, "-p", v] =
        parseExecArgs [sid, "-p", v] none none false from rfl]
      simp [parseExecArgs, hh, hflag, hne1, hne2, hfv, parseU32_eq_some hv,
        show isHelpToken "-p" = false from by decide]
    refine ⟨⟨fun hcontr => ?_, fun hfalse => ?_⟩, fun _ => hs⟩
    · rw [hs] at hcontr; cases hcontr
    · cases hfalse
  | false =>
    have hf : parse ["exec", sid, "-p", v] = .failure .InvalidValue := by
      rw [show parse ["exec", sid, "-p", v] =
        parseExecArgs [sid, "-p", v] none none false from rfl]
      simp [parseExecArgs, hh, hflag, hne1, hne2, hfv, parseU32_eq_none hv,
        show isHelpToken "-p" = false from by decide]
    exact ⟨⟨fun _ => rfl, fun _ => hf⟩, fun htrue => by cases htrue⟩

/-- C8 witness: the quantified parts apply at concrete inputs. -/
theorem C8_vport_invalid_witness :
    parse ["exec", "x", "-p", "7"] = .success (.Exec ⟨"x", 7⟩) ∧
    (ExecArguments.mk "abc123" 2048).vport < 2 ^ 32 :=
  ⟨((C8_vport_invalid.2.2.1 "x" "7" (by decide)).2 (by decide)),
   C8_vport_invalid.2.2.2 ["exec", "abc123", "-p", "2048"] ⟨"abc123", 2048⟩
     (by decide)⟩

/-- C9: `IpTablesArguments::from_str` returns `Ok` exactly for the
case-sensitive inputs `"Get"` and `"Set"` (so the CLI spellings `"get"`
and `"set"` are rejected), producing variants whose required string
fields are empty, and every other input `s` yields
`Err("Invalid argument: s")`. -/
theorem C9_from_str (s : String) (h1 : s ≠ "Get") (h2 : s ≠ "Set") :
    IpTablesArguments.from_str "Get" = .ok (.Get "" false) ∧
    IpTablesArguments.from_str "Set" = .ok (.Set "" false "") ∧
    IpTablesArguments.from_str "get" = .error "Invalid argument: get" ∧
    IpTablesArguments.from_str "set" = .error "Invalid argument: set" ∧
    IpTablesArguments.from_str s = .error ("Invalid argument: " ++ s) := by
  refine ⟨rfl, rfl, rfl, rfl, ?_⟩
  simp [IpTablesArguments.from_str, h1, h2]

/-- C9 witness: the quantified part applies at a concrete input. -/
theorem C9_from_str_witness :
    IpTablesArguments.from_str "bogus" = .error "Invalid argument: bogus" :=
  (C9_from_str "bogus" (by decide) (by decide)).2.2.2.2

/-- C10: for `iptables set` the required FILE positional may be
interleaved with the flags — `iptables set rules.txt --sand-box s1`
succeeds and yields the same invocation as
`iptables set --sand-box s1 rules.txt`. -/
theorem C10_interleaved_positional :
    parse ["iptables", "set", "rules.txt", "--sand-box", "s1"] =
      .success (.Iptables (.Set "s1" false "rules.txt")) ∧
    parse ["iptables", "set", "--sand-box", "s1", "rules.txt"] =
      .success (.Iptables (.Set "s1" false "rules.txt")) := by decide

end KataCtl
